import Mathlib

set_option maxHeartbeats 1000000

namespace WhaticketSpec

/-! # Shallow embedding of the whaticket ticket-list synchronization engine

Definitions are translated from:
* `frontend/src/components/TicketsList/index.js` (reducer, socket handler),
* the `ListTicketsService` query service (`src/unnamed/part_000`),
* `backend/src/services/AuthServices/RefreshTokenService.ts`.
-/

/-- Frontend ticket as consumed by the TicketsList component: identity plus the
fields the component reads (`frontend/src/components/TicketsList/index.js`). -/
structure Ticket where
  id : Nat
  unreadMessages : Nat
  userId : Option Nat
  queueId : Option Nat
  status : String
deriving DecidableEq

/-- JS `Array.prototype.findIndex` over ticket ids, as used at line 60 of
`TicketsList/index.js`: index of the first element whose `id` matches, else
`none`. -/
def findIndexId (tid : Nat) : List Ticket → Option Nat
  | [] => none
  | a :: s => if a.id == tid then some 0 else (findIndexId tid s).map (fun i => i + 1)

/-- One step of the `LOAD_TICKETS` loop body (`TicketsList/index.js` lines
59-69): look the incoming ticket up by id; if found, write the new data at that
index and, when the incoming ticket has unread messages, splice it out of its
position and unshift it to the front; otherwise push it at the end. -/
def mergeTicket (state : List Ticket) (ticket : Ticket) : List Ticket :=
  match findIndexId ticket.id state with
  | some index =>
    let replaced := state.set index ticket
    if ticket.unreadMessages > 0 then ticket :: replaced.eraseIdx index else replaced
  | none => state ++ [ticket]

/-- Replace the first element whose id matches `ticket.id` with `ticket`
(recursive form of `state[index] = ticket` after a `findIndex`). -/
def updateFirst (ticket : Ticket) : List Ticket → List Ticket
  | [] => []
  | a :: s => if a.id == ticket.id then ticket :: s else a :: updateFirst ticket s

/-- Remove the first element whose id is `tid` (recursive form of
`splice(index, 1)` after a `findIndex`). -/
def eraseFirstId (tid : Nat) : List Ticket → List Ticket
  | [] => []
  | a :: s => if a.id == tid then s else a :: eraseFirstId tid s

/-- Does the list contain a ticket with id `tid`? -/
def containsId (tid : Nat) (s : List Ticket) : Bool :=
  s.any (fun a => a.id == tid)

/-- Structural-recursion form of `mergeTicket`; proved equal to it in
`mergeTicket_eq_rec` below. -/
def mergeTicketRec (state : List Ticket) (ticket : Ticket) : List Ticket :=
  if containsId ticket.id state then
    if ticket.unreadMessages > 0 then ticket :: eraseFirstId ticket.id state
    else updateFirst ticket state
  else state ++ [ticket]

/-- The whole `LOAD_TICKETS` branch of the reducer (`TicketsList/index.js`
lines 55-72): fold the loop body over the payload, in batch order. -/
def loadTickets (state : List Ticket) (batch : List Ticket) : List Ticket :=
  batch.foldl mergeTicket state

/-- Reducer actions of `TicketsList/index.js` (`LOAD_TICKETS` and `RESET`). -/
inductive TicketsAction where
  | load (payload : List Ticket)
  | reset

/-- The reducer of `TicketsList/index.js` lines 53-79. -/
def reducer (state : List Ticket) : TicketsAction → List Ticket
  | TicketsAction.load payload => loadTickets state payload
  | TicketsAction.reset => []

/-- Running a sequence of dispatched actions through the reducer. -/
def runActions (state : List Ticket) (actions : List TicketsAction) : List Ticket :=
  actions.foldl reducer state

/-- The ids of the tickets in a list state, in order. -/
def ids (s : List Ticket) : List Nat := s.map Ticket.id

/-- `shouldUpdateTicket` from `TicketsList/index.js` lines 133-135:
`(!ticket.userId || ticket.userId === user?.id || showAll) &&
 (!ticket.queueId || selectedQueueIds.includes(ticket.queueId))`. -/
def shouldUpdateTicket (ticket : Ticket) (currentUserId : Option Nat) (showAll : Bool)
    (selectedQueueIds : List Nat) : Bool :=
  (ticket.userId.isNone || ticket.userId == currentUserId || showAll) &&
  (ticket.queueId.isNone ||
    (match ticket.queueId with
     | some q => selectedQueueIds.contains q
     | none => false))

/-- The `socket.on("ticket", ...)` handler of `TicketsList/index.js` lines
141-149: an `update` event whose ticket passes `shouldUpdateTicket` dispatches
`LOAD_TICKETS` with a one-ticket payload; a `delete` event dispatches
`RESET`. -/
def handleTicketEvent (state : List Ticket) (action : String) (ticket : Ticket)
    (currentUserId : Option Nat) (showAll : Bool) (selectedQueueIds : List Nat) : List Ticket :=
  let afterUpdate :=
    if action == "update" && shouldUpdateTicket ticket currentUserId showAll selectedQueueIds then
      reducer state (TicketsAction.load [ticket])
    else state
  if action == "delete" then reducer afterUpdate TicketsAction.reset else afterUpdate

/-- The filter-change effect of `TicketsList/index.js` lines 117-120: dispatch
`RESET` and set the page number back to 1. -/
def onFilterChange (state : List Ticket) (_previousPage : Nat) : List Ticket × Nat :=
  (reducer state TicketsAction.reset, 1)

/-- Sample ticket used by concrete witnesses. -/
def tEx1 : Ticket := ⟨1, 0, none, none, "open"⟩

/-- Sample unread ticket used by concrete witnesses. -/
def tEx2 : Ticket := ⟨2, 3, none, none, "pending"⟩


/-- A row of the `TicketTags` join table (the `TicketTag` model queried at
lines 179-182 of the query service). -/
structure TicketTagRow where
  ticketId : Nat
  tagId : Nat
deriving DecidableEq

/-- A persisted ticket row as seen by the query service
(`src/unnamed/part_000`): the columns its where-condition can mention, the
contact and message data used by the search clause, and the `updatedAt`
ordering key. The day fields model which calendar day `createdAt` and
`updatedAt` fall in. -/
structure TicketRow where
  id : Nat
  userId : Option Nat
  status : String
  queueId : Option Nat
  unreadMessages : Nat
  createdDay : String
  updatedDay : String
  updatedAtNum : Nat
  contactName : String
  contactNumber : String
  messageBodies : List String
deriving DecidableEq

/-- The `Request` interface of the query service (`src/unnamed/part_000`
lines 13-24), with the defaults `searchParam = ""` and `pageNumber = "1"`
already applied and `pageNumber` held as a number. -/
structure Request where
  searchParam : String
  pageNumber : Nat
  status : Option String
  date : Option String
  updatedAt : Option String
  showAll : Option String
  userId : Nat
  withUnreadMessages : Option String
  queueIds : List Nat
  tags : List Nat
deriving DecidableEq

/-- The value held under the `[Op.or]` key of the where-condition: either the
base ownership clause `[{ userId }, { status: "pending" }]` or the search
clause for a sanitized search parameter, which overwrites the same key
(lines 80-83 and 133-146). -/
inductive OrClause where
  | userPending (userId : Nat)
  | search (param : String)
deriving DecidableEq

/-- The where-condition object built by the query service, one field per
possible key of the Sequelize literal; `none` means the key is absent. -/
structure WhereCond where
  opOr : Option OrClause
  queueCond : Option (List Nat)
  status : Option String
  createdAtDay : Option String
  updatedAtDay : Option String
  unreadGt : Option Nat
  idIn : Option (List Nat)
deriving DecidableEq

/-- Helper for `intersectionOne`: drop values already seen, keeping first
occurrences. -/
def uniqAux (seen : List Nat) : List Nat → List Nat
  | [] => []
  | a :: l => if seen.contains a then uniqAux seen l else a :: uniqAux (a :: seen) l

/-- `lodash.intersection` applied to a single array (line 184): the array's
values with duplicates removed, keeping first occurrences. -/
def intersectionOne (l : List Nat) : List Nat := uniqAux [] l

/-- Lines 178-190: the ticket ids carrying ANY of the requested tags —
the `ticketId`s of the `TicketTag` rows whose `tagId` is in `tags`, passed
through `lodash.intersection` as a single array. -/
def resolveTagTicketIds (ticketTags : List TicketTagRow) (tags : List Nat) : List Nat :=
  intersectionOne ((ticketTags.filter (fun tt => tags.contains tt.tagId)).map
    (fun tt => tt.ticketId))

/-- The where-condition construction of the query service internal function
(`src/unnamed/part_000` lines 80-190), one `let` per mutation of
`whereCondition` in the source. `userQueueIds` stands for the queue ids of
the requesting user fetched through `ShowUserService` in the
`withUnreadMessages` branch (lines 168-169). -/
def buildWhereCondition (r : Request) (userQueueIds : List Nat)
    (ticketTags : List TicketTagRow) : WhereCond :=
  let w0 : WhereCond :=
    { opOr := some (OrClause.userPending r.userId), queueCond := some r.queueIds,
      status := none, createdAtDay := none, updatedAtDay := none,
      unreadGt := none, idIn := none }
  let w1 := if r.showAll == some "true" then
      { opOr := none, queueCond := some r.queueIds, status := none,
        createdAtDay := none, updatedAtDay := none, unreadGt := none,
        idIn := none }
    else w0
  let w2 := match r.status with
    | some st => if st.isEmpty then w1 else { w1 with status := some st }
    | none => w1
  let w3 := if r.searchParam.isEmpty then w2
    else { w2 with opOr := some (OrClause.search (r.searchParam.toLower.trim)) }
  let w4 := match r.date with
    | some d => if d.isEmpty then w3 else { w3 with createdAtDay := some d }
    | none => w3
  let w5 := match r.updatedAt with
    | some d => if d.isEmpty then w4 else { w4 with updatedAtDay := some d }
    | none => w4
  let w6 := if r.withUnreadMessages == some "true" then
      { opOr := some (OrClause.userPending r.userId), queueCond := some userQueueIds,
        status := none, createdAtDay := none, updatedAtDay := none,
        unreadGt := some 0, idIn := none }
    else w5
  if r.tags.isEmpty then w6
  else { w6 with idIn := some (resolveTagTicketIds ticketTags r.tags) }

/-- Does `hay` start with `pre`, character by character? -/
def startsWithChars : List Char → List Char → Bool
  | [], _ => true
  | _ :: _, [] => false
  | p :: ps, h :: hs => p == h && startsWithChars ps hs

/-- Does `hay` contain `sub` as a contiguous run? Models SQL
`LIKE '%sub%'`. -/
def hasSubstringChars (sub : List Char) : List Char → Bool
  | [] => sub.isEmpty
  | h :: hs => startsWithChars sub (h :: hs) || hasSubstringChars sub hs

/-- String containment used to model `LIKE '%sub%'`. -/
def strContains (hay sub : String) : Bool := hasSubstringChars sub.toList hay.toList

/-- Truth of an `[Op.or]` clause on a ticket row. The search clause models the
`LOWER(...) LIKE
 percent-param-percent` matches on contact name, contact number and message
bodies of lines 133-146. -/
def evalOrClause (c : OrClause) (row : TicketRow) : Bool :=
  match c with
  | OrClause.userPending uid => row.userId == some uid || row.status == "pending"
  | OrClause.search sp =>
    strContains row.contactName.toLower sp || strContains row.contactNumber sp ||
      row.messageBodies.any (fun b => strContains b.toLower sp)

/-- Truth of the whole where-condition on a ticket row: the conjunction of its
present clauses. `queueCond qs` is `queueId IN qs OR queueId IS NULL`
(line 82); `unreadGt n` is `unreadMessages > n` (line 174); `idIn` is
`id IN ...` (line 188); the day fields model the
`BETWEEN startOfDay endOfDay` checks (lines 149-165). -/
def evalWhereCond (w : WhereCond) (row : TicketRow) : Bool :=
  (match w.opOr with
   | some c => evalOrClause c row
   | none => true) &&
  (match w.queueCond with
   | some qs =>
     (match row.queueId with
      | some qid => qs.contains qid
      | none => true)
   | none => true) &&
  (match w.status with
   | some st => row.status == st
   | none => true) &&
  (match w.createdAtDay with
   | some d => row.createdDay == d
   | none => true) &&
  (match w.updatedAtDay with
   | some d => row.updatedDay == d
   | none => true) &&
  (match w.unreadGt with
   | some n => decide (n < row.unreadMessages)
   | none => true) &&
  (match w.idIn with
   | some allowed => allowed.contains row.id
   | none => true)

/-- Insert into a list already sorted by `updatedAtNum` in descending
order. -/
def insertDesc (row : TicketRow) : List TicketRow → List TicketRow
  | [] => [row]
  | a :: l => if a.updatedAtNum ≤ row.updatedAtNum then row :: a :: l
    else a :: insertDesc row l

/-- `ORDER BY updatedAt DESC` of the `findAndCountAll` call (line 201). -/
def sortByUpdatedDesc : List TicketRow → List TicketRow
  | [] => []
  | a :: l => insertDesc a (sortByUpdatedDesc l)

/-- The `Response` interface of the query service (lines 26-30). -/
structure Response where
  tickets : List TicketRow
  count : Nat
  hasMore : Bool
deriving DecidableEq

/-- The query service internal function (`src/unnamed/part_000` lines
60-212) run against a modelled ticket store `db` and `TicketTags` table:
build the where-condition, filter, order by `updatedAt DESC`, paginate with
`limit = 40` and `offset = limit * (pageNumber - 1)`, count every matching
row (`findAndCountAll` with `distinct`), and set
`hasMore = count > offset + tickets.length`. -/
def ListTicketsServiceInternal (db : List TicketRow) (ticketTags : List TicketTagRow)
    (userQueueIds : List Nat) (r : Request) : Response :=
  let w := buildWhereCondition r userQueueIds ticketTags
  let matching := db.filter (fun row => evalWhereCond w row)
  let ordered := sortByUpdatedDesc matching
  let limit := 40
  let offset := limit * (r.pageNumber - 1)
  let tickets := (ordered.drop offset).take limit
  let count := matching.length
  { tickets := tickets, count := count, hasMore := decide (count > offset + tickets.length) }

/-- A JavaScript error value: its `name` and its message. `new Error(msg)`
carries name `"Error"`; an aborted fetch raises a `DOMException` whose name is
`"AbortError"`. -/
structure JsError where
  name : String
  message : String
deriving DecidableEq

/-- The abort pre-check wrapped around the query (lines 74-78): when the
signal is already aborted the internal function throws
`new Error("Requisição cancelada")`; otherwise the query runs and
resolves. -/
def listTicketsInternalRun (signalAborted : Bool) (db : List TicketRow)
    (ticketTags : List TicketTagRow) (userQueueIds : List Nat) (r : Request) :
    Except JsError Response :=
  if signalAborted then Except.error ⟨"Error", "Requisição cancelada"⟩
  else Except.ok (ListTicketsServiceInternal db ticketTags userQueueIds r)

/-- The `ListTicketsService` wrapper (lines 36-57): run the internal
function; in the catch, return the empty page only when the error's `name` is
`"AbortError"`, and rethrow every other error. -/
def ListTicketsService (signalAborted : Bool) (db : List TicketRow)
    (ticketTags : List TicketTagRow) (userQueueIds : List Nat) (r : Request) :
    Except JsError Response :=
  match listTicketsInternalRun signalAborted db ticketTags userQueueIds r with
  | Except.ok res => Except.ok res
  | Except.error e =>
    if e.name == "AbortError" then Except.ok ⟨[], 0, false⟩ else Except.error e

/-- The condition rule 5 of the specification states for `withUnreadMessages`:
ticket belongs to the operator OR is pending, queue in the operator's own
queue set or null, and `unreadMessages > 0`. Written from the specification's
words, to be compared with `buildWhereCondition`. -/
def specUnreadCondition (userId : Nat) (userQueueIds : List Nat) : WhereCond :=
  { opOr := some (OrClause.userPending userId), queueCond := some userQueueIds,
    status := none, createdAtDay := none, updatedAtDay := none,
    unreadGt := some 0, idIn := none }

/-- Payload decoded from a refresh token
(`RefreshTokenService.ts` lines 13-16). -/
structure RefreshTokenPayload where
  id : Nat
  tokenVersion : Nat
deriving DecidableEq

/-- The user record fields `RefreshTokenService` reads. -/
structure AuthUser where
  id : Nat
  tokenVersion : Nat
deriving DecidableEq

/-- `AppError` as thrown by the backend: message and HTTP status code. -/
structure AppError where
  message : String
  statusCode : Nat
deriving DecidableEq

/-- The success payload of `RefreshTokenService` (lines 18-22). -/
structure RefreshResponse where
  user : AuthUser
  newToken : String
  refreshToken : String
deriving DecidableEq

/-- `RefreshTokenService` (`RefreshTokenService.ts` lines 24-57). External
collaborators are passed as functions: `verify` models `jsonwebtoken.verify`
against the configured refresh secret (`none` = verification throws),
`showUser` models `ShowUserService` (`none` = lookup throws), and the token
factories model `createAccessToken` / `createRefreshToken`. The returned
`Bool` records whether the `"jrt"` cookie was cleared. A falsy token (absent
or empty) fails up front; any throw inside the `try` lands in the catch,
which clears the cookie and rethrows a 401 `AppError`; the in-`try` version
mismatch 401 is likewise re-wrapped by the catch. -/
def RefreshTokenService (verify : String → Option RefreshTokenPayload)
    (showUser : Nat → Option AuthUser)
    (createAccessToken createRefreshToken : AuthUser → String)
    (token : Option String) : Except AppError RefreshResponse × Bool :=
  match token with
  | none => (Except.error ⟨"Refresh token não fornecido", 401⟩, true)
  | some tok =>
    if tok.isEmpty then (Except.error ⟨"Refresh token não fornecido", 401⟩, true)
    else
      match verify tok with
      | none => (Except.error ⟨"Sessão expirada ou token inválido", 401⟩, true)
      | some decoded =>
        match showUser decoded.id with
        | none => (Except.error ⟨"Sessão expirada ou token inválido", 401⟩, true)
        | some user =>
          if user.tokenVersion ≠ decoded.tokenVersion then
            (Except.error ⟨"Sessão expirada ou token inválido", 401⟩, true)
          else
            (Except.ok ⟨user, createAccessToken user, createRefreshToken user⟩, false)

/-- Sample ticket row used by concrete witnesses: in no queue, no owner. -/
def rowEx : TicketRow := ⟨1, none, "open", none, 0, "d1", "d1", 0, "alice", "123", []⟩

/-- Sample ticket row used by the C5 counterexample: owned by operator 7,
unread, not among the tag-resolved ids. -/
def rowEx2 : TicketRow := ⟨6, some 7, "open", none, 1, "d1", "d1", 0, "bob", "456", []⟩

/-- Sample `TicketTags` table: ticket 5 carries tag 1. -/
def ttEx : List TicketTagRow := [⟨5, 1⟩]

/-- Sample request: `showAll` set, no other filters, page 1. -/
def rEx85 : Request := ⟨"", 1, none, none, none, some "true", 7, none, [], []⟩

/-- Sample request with `withUnreadMessages` and a non-empty tag set. -/
def rExUnreadTags : Request := ⟨"", 1, none, none, none, none, 7, some "true", [], [1]⟩

/-- Sample request with `withUnreadMessages` and no tags. -/
def rExUnread : Request := ⟨"", 1, none, none, none, none, 7, some "true", [], []⟩

/-- Sample request whose tag set resolves to no ticket at all. -/
def rExEmptyTags : Request := ⟨"", 1, none, none, none, some "true", 7, none, [], [2]⟩

/-- Sample verifier for the refresh-token witness: accepts every token with
payload id 1, version 2. -/
def verifyEx : String → Option RefreshTokenPayload := fun _ => some ⟨1, 2⟩

/-- Sample user store for the refresh-token witness. -/
def showUserEx : Nat → Option AuthUser := fun _ => some ⟨1, 2⟩

/-- Sample token factory for the refresh-token witness. -/
def mkTokenEx : AuthUser → String := fun _ => "tok"

theorem containsId_cons (tid : Nat) (a : Ticket) (s : List Ticket) :
    containsId tid (a :: s) = ((a.id == tid) || containsId tid s) := rfl

theorem findIndexId_cons (tid : Nat) (a : Ticket) (s : List Ticket) :
    findIndexId tid (a :: s) =
      if a.id == tid then some 0 else (findIndexId tid s).map (fun i => i + 1) := rfl

theorem updateFirst_cons (t a : Ticket) (s : List Ticket) :
    updateFirst t (a :: s) = if a.id == t.id then t :: s else a :: updateFirst t s := rfl

theorem eraseFirstId_cons (tid : Nat) (a : Ticket) (s : List Ticket) :
    eraseFirstId tid (a :: s) = if a.id == tid then s else a :: eraseFirstId tid s := rfl

theorem containsId_eq_isSome (tid : Nat) (s : List Ticket) :
    containsId tid s = (findIndexId tid s).isSome := by
  induction s with
  | nil => rfl
  | cons a s ih =>
    cases hb : (a.id == tid) with
    | true => simp [containsId_cons, findIndexId_cons, hb]
    | false =>
      rw [containsId_cons, hb, Bool.false_or, ih, findIndexId_cons, hb]
      cases findIndexId tid s <;> rfl

theorem mergeTicketRec_not_found {s : List Ticket} {t : Ticket}
    (h : containsId t.id s = false) : mergeTicketRec s t = s ++ [t] := by
  simp [mergeTicketRec, h]

theorem mergeTicketRec_found_unread {s : List Ticket} {t : Ticket}
    (h : containsId t.id s = true) (hu : t.unreadMessages > 0) :
    mergeTicketRec s t = t :: eraseFirstId t.id s := by
  simp [mergeTicketRec, h, hu]

theorem mergeTicketRec_found_read {s : List Ticket} {t : Ticket}
    (h : containsId t.id s = true) (hu : ¬ t.unreadMessages > 0) :
    mergeTicketRec s t = updateFirst t s := by
  simp [mergeTicketRec, h, hu]

theorem mergeTicket_none {s : List Ticket} {t : Ticket}
    (h : findIndexId t.id s = none) : mergeTicket s t = s ++ [t] := by
  simp [mergeTicket, h]

theorem mergeTicket_some {s : List Ticket} {t : Ticket} {i : Nat}
    (h : findIndexId t.id s = some i) :
    mergeTicket s t =
      if t.unreadMessages > 0 then t :: (s.set i t).eraseIdx i else s.set i t := by
  simp [mergeTicket, h]

theorem mergeTicket_eq_rec (s : List Ticket) (t : Ticket) :
    mergeTicket s t = mergeTicketRec s t := by
  induction s with
  | nil => rfl
  | cons a s ih =>
    cases hb : (a.id == t.id) with
    | true =>
      have hfc : findIndexId t.id (a :: s) = some 0 := by
        rw [findIndexId_cons, hb]; rfl
      have hcc : containsId t.id (a :: s) = true := by
        rw [containsId_cons, hb, Bool.true_or]
      rw [mergeTicket_some hfc]
      by_cases hu : t.unreadMessages > 0
      · rw [if_pos hu, mergeTicketRec_found_unread hcc hu, eraseFirstId_cons, hb, if_pos rfl]
        rfl
      · rw [if_neg hu, mergeTicketRec_found_read hcc hu, updateFirst_cons, hb, if_pos rfl]
        rfl
    | false =>
      cases hf : findIndexId t.id s with
      | none =>
        have hfc : findIndexId t.id (a :: s) = none := by
          rw [findIndexId_cons, hb, if_neg (by simp), hf]; rfl
        have hc : containsId t.id s = false := by rw [containsId_eq_isSome, hf]; rfl
        have hcc : containsId t.id (a :: s) = false := by
          rw [containsId_cons, hb, Bool.false_or, hc]
        rw [mergeTicket_none hfc, mergeTicketRec_not_found hcc]
      | some i =>
        have hfc : findIndexId t.id (a :: s) = some (i + 1) := by
          rw [findIndexId_cons, hb, if_neg (by simp), hf]; rfl
        have hc : containsId t.id s = true := by rw [containsId_eq_isSome, hf]; rfl
        have hcc : containsId t.id (a :: s) = true := by
          rw [containsId_cons, hb, Bool.false_or, hc]
        rw [mergeTicket_some hfc]
        rw [mergeTicket_some hf] at ih
        by_cases hu : t.unreadMessages > 0
        · rw [if_pos hu] at ih ⊢
          rw [mergeTicketRec_found_unread hc hu] at ih
          rw [mergeTicketRec_found_unread hcc hu, eraseFirstId_cons, hb, if_neg (by simp)]
          have htail : (s.set i t).eraseIdx i = eraseFirstId t.id s := by
            injection ih
          rw [List.set_cons_succ, List.eraseIdx_cons_succ, htail]
        · rw [if_neg hu] at ih ⊢
          rw [mergeTicketRec_found_read hc hu] at ih
          rw [mergeTicketRec_found_read hcc hu, updateFirst_cons, hb, if_neg (by simp)]
          rw [List.set_cons_succ, ih]

theorem ids_cons (a : Ticket) (s : List Ticket) : ids (a :: s) = a.id :: ids s := rfl

theorem ids_append (s l : List Ticket) : ids (s ++ l) = ids s ++ ids l := by
  simp [ids]

theorem ids_updateFirst (t : Ticket) (s : List Ticket) : ids (updateFirst t s) = ids s := by
  induction s with
  | nil => rfl
  | cons a s ih =>
    rw [updateFirst_cons]
    by_cases hb : a.id = t.id
    · simp [ids_cons, hb]
    · simp [ids_cons, hb, ih]

theorem eraseFirstId_sublist (tid : Nat) (s : List Ticket) : (eraseFirstId tid s).Sublist s := by
  induction s with
  | nil => simp [eraseFirstId]
  | cons a s ih =>
    rw [eraseFirstId_cons]
    by_cases hb : a.id = tid
    · simp only [hb, beq_self_eq_true, if_pos]
      exact List.sublist_cons_self a s
    · have h1 : (a.id == tid) = false := by simp [hb]
      rw [h1, if_neg (by simp)]
      exact List.cons_sublist_cons.mpr ih

theorem mem_ids_of_eraseFirstId {x tid : Nat} {s : List Ticket}
    (h : x ∈ ids (eraseFirstId tid s)) : x ∈ ids s :=
  List.Sublist.mem h (List.Sublist.map Ticket.id (eraseFirstId_sublist tid s))

theorem not_mem_ids_eraseFirstId {tid : Nat} {s : List Ticket}
    (h : (ids s).Nodup) : tid ∉ ids (eraseFirstId tid s) := by
  induction s with
  | nil => simp [eraseFirstId, ids]
  | cons a s ih =>
    rw [ids_cons] at h
    have h1 : a.id ∉ ids s := (List.nodup_cons.mp h).1
    have h2 : (ids s).Nodup := (List.nodup_cons.mp h).2
    rw [eraseFirstId_cons]
    by_cases hb : a.id = tid
    · simp only [hb, beq_self_eq_true, if_pos]
      rw [← hb]
      exact h1
    · have hb' : (a.id == tid) = false := by simp [hb]
      rw [hb', if_neg (by simp), ids_cons]
      intro hm
      rcases List.mem_cons.mp hm with h3 | h3
      · exact hb h3.symm
      · exact ih h2 h3

theorem nodup_ids_eraseFirstId {tid : Nat} {s : List Ticket} (h : (ids s).Nodup) :
    (ids (eraseFirstId tid s)).Nodup :=
  List.Nodup.sublist (List.Sublist.map Ticket.id (eraseFirstId_sublist tid s)) h

theorem containsId_iff_mem {tid : Nat} {s : List Ticket} :
    containsId tid s = true ↔ tid ∈ ids s := by
  simp only [containsId, List.any_eq_true, beq_iff_eq, ids, List.mem_map]

theorem not_mem_of_containsId_false {tid : Nat} {s : List Ticket}
    (h : containsId tid s = false) : tid ∉ ids s := by
  intro hm
  rw [containsId_iff_mem.mpr hm] at h
  exact Bool.noConfusion h

theorem nodup_ids_mergeTicket {s : List Ticket} (t : Ticket) (h : (ids s).Nodup) :
    (ids (mergeTicket s t)).Nodup := by
  rw [mergeTicket_eq_rec]
  cases hc : containsId t.id s with
  | false =>
    rw [mergeTicketRec_not_found hc]
    have hnm : t.id ∉ ids s := not_mem_of_containsId_false hc
    rw [ids_append]
    show (ids s ++ [t.id]).Nodup
    rw [List.Perm.nodup_iff (List.perm_append_singleton _ _)]
    exact List.nodup_cons.mpr ⟨hnm, h⟩
  | true =>
    by_cases hu : t.unreadMessages > 0
    · rw [mergeTicketRec_found_unread hc hu, ids_cons]
      exact List.nodup_cons.mpr ⟨not_mem_ids_eraseFirstId h, nodup_ids_eraseFirstId h⟩
    · rw [mergeTicketRec_found_read hc hu, ids_updateFirst]
      exact h

theorem nodup_ids_loadTickets {s : List Ticket} (batch : List Ticket) (h : (ids s).Nodup) :
    (ids (loadTickets s batch)).Nodup := by
  induction batch generalizing s with
  | nil => exact h
  | cons b rest ih => exact ih (nodup_ids_mergeTicket b h)

/-- C2: starting from a ListState with pairwise-distinct ticket ids, any
sequence of reducer operations (`LOAD_TICKETS` batches and `RESET` signals)
yields a ListState in which no two tickets share an id. -/
theorem mergeOps_preserve_id_nodup (s : List Ticket) (h : (ids s).Nodup)
    (actions : List TicketsAction) : (ids (runActions s actions)).Nodup := by
  induction actions generalizing s with
  | nil => exact h
  | cons act rest ih =>
    have hstep : (ids (reducer s act)).Nodup := by
      cases act with
      | load payload => exact nodup_ids_loadTickets payload h
      | reset => simp [reducer, ids]
    exact ih (reducer s act) hstep

/-- C2 witness: the uniqueness theorem applied at a concrete state and a
concrete action sequence. -/
theorem mergeOps_preserve_id_nodup_witness :
    (ids (runActions [tEx1]
      [TicketsAction.load [tEx2, tEx1], TicketsAction.reset,
        TicketsAction.load [tEx2]])).Nodup :=
  mergeOps_preserve_id_nodup [tEx1] (by decide)
    [TicketsAction.load [tEx2, tEx1], TicketsAction.reset, TicketsAction.load [tEx2]]

theorem loadTickets_append (s b1 b2 : List Ticket) :
    loadTickets s (b1 ++ b2) = loadTickets (loadTickets s b1) b2 := by
  simp [loadTickets, List.foldl_append]

theorem mem_ids_eraseFirstId_of_ne {x tid : Nat} {s : List Ticket}
    (hne : x ≠ tid) (h : x ∈ ids s) : x ∈ ids (eraseFirstId tid s) := by
  induction s with
  | nil => simp [ids] at h
  | cons a s ih =>
    rw [eraseFirstId_cons]
    by_cases hb : a.id = tid
    · have hb' : (a.id == tid) = true := by simp [hb]
      rw [hb', if_pos rfl]
      rcases List.mem_cons.mp h with h1 | h1
      · exact absurd (h1.trans hb) hne
      · exact h1
    · have hb' : (a.id == tid) = false := by simp [hb]
      rw [hb', if_neg (by simp), ids_cons]
      rcases List.mem_cons.mp h with h1 | h1
      · exact List.mem_cons.mpr (Or.inl h1)
      · exact List.mem_cons.mpr (Or.inr (ih h1))

theorem containsId_mergeTicketRec_mono {x : Nat} {s : List Ticket} (u : Ticket)
    (h : containsId x s = true) : containsId x (mergeTicketRec s u) = true := by
  rw [containsId_iff_mem] at h ⊢
  cases hc : containsId u.id s with
  | false =>
    rw [mergeTicketRec_not_found hc, ids_append]
    exact List.mem_append.mpr (Or.inl h)
  | true =>
    by_cases hu : u.unreadMessages > 0
    · rw [mergeTicketRec_found_unread hc hu, ids_cons]
      by_cases hx : x = u.id
      · exact List.mem_cons.mpr (Or.inl hx)
      · exact List.mem_cons.mpr (Or.inr (mem_ids_eraseFirstId_of_ne hx h))
    · rw [mergeTicketRec_found_read hc hu, ids_updateFirst]
      exact h

theorem containsId_loadTickets_mono {x : Nat} {s : List Ticket} (batch : List Ticket)
    (h : containsId x s = true) : containsId x (loadTickets s batch) = true := by
  induction batch generalizing s with
  | nil => exact h
  | cons b rest ih =>
    have hstep : loadTickets s (b :: rest) = loadTickets (mergeTicket s b) rest := rfl
    rw [hstep]
    refine ih ?_
    rw [mergeTicket_eq_rec]
    exact containsId_mergeTicketRec_mono b h

theorem eraseFirstId_append_left {tid : Nat} {l1 : List Ticket} (l2 : List Ticket)
    (h : tid ∉ ids l1) : eraseFirstId tid (l1 ++ l2) = l1 ++ eraseFirstId tid l2 := by
  induction l1 with
  | nil => rfl
  | cons a l1 ih =>
    rw [ids_cons] at h
    have h1 : a.id ≠ tid := fun he => h (List.mem_cons.mpr (Or.inl he.symm))
    have h2 : tid ∉ ids l1 := fun hm => h (List.mem_cons.mpr (Or.inr hm))
    have hb : (a.id == tid) = false := by simp [h1]
    rw [List.cons_append, eraseFirstId_cons, hb, if_neg (by simp), ih h2, List.cons_append]

theorem updateFirst_append_left {u : Ticket} {l1 : List Ticket} (l2 : List Ticket)
    (h : u.id ∉ ids l1) : updateFirst u (l1 ++ l2) = l1 ++ updateFirst u l2 := by
  induction l1 with
  | nil => rfl
  | cons a l1 ih =>
    rw [ids_cons] at h
    have h1 : a.id ≠ u.id := fun he => h (List.mem_cons.mpr (Or.inl he.symm))
    have h2 : u.id ∉ ids l1 := fun hm => h (List.mem_cons.mpr (Or.inr hm))
    have hb : (a.id == u.id) = false := by simp [h1]
    rw [List.cons_append, updateFirst_cons, hb, if_neg (by simp), ih h2, List.cons_append]

theorem loadTickets_unread_front (t : Ticket) :
    ∀ (b2 l1 l2 : List Ticket),
      (∀ u ∈ l1, u.unreadMessages > 0) →
      (∀ u ∈ l1, u.id ∉ ids b2) →
      t.id ∉ ids b2 →
      (ids b2).Nodup →
      ∃ l1' l2', loadTickets (l1 ++ t :: l2) b2 = l1' ++ t :: l2' ∧
        ∀ u ∈ l1', u.unreadMessages > 0 := by
  intro b2
  induction b2 with
  | nil =>
    intro l1 l2 h1 _ _ _
    exact ⟨l1, l2, rfl, h1⟩
  | cons u rest ih =>
    intro l1 l2 h1 h2 ht hnd
    have hhead : u.id ∈ ids (u :: rest) := by simp [ids]
    have htne : t.id ≠ u.id := fun he => ht (he ▸ hhead)
    have hu_l1 : u.id ∉ ids l1 := by
      intro hm
      rcases List.mem_map.mp hm with ⟨v, hv, hvid⟩
      exact h2 v hv (hvid ▸ hhead)
    rw [ids_cons] at hnd ht h2
    have hu_rest : u.id ∉ ids rest := (List.nodup_cons.mp hnd).1
    have hrest_nd : (ids rest).Nodup := (List.nodup_cons.mp hnd).2
    have ht_rest : t.id ∉ ids rest := fun hm => ht (List.mem_cons.mpr (Or.inr hm))
    have h2rest : ∀ v ∈ l1, v.id ∉ ids rest := fun v hv hm =>
      h2 v hv (List.mem_cons.mpr (Or.inr hm))
    have hbne : (t.id == u.id) = false := by simp [htne]
    have hstep : loadTickets (l1 ++ t :: l2) (u :: rest) =
        loadTickets (mergeTicket (l1 ++ t :: l2) u) rest := rfl
    rw [hstep, mergeTicket_eq_rec]
    cases hc : containsId u.id (l1 ++ t :: l2) with
    | false =>
      rw [mergeTicketRec_not_found hc]
      have hshape : (l1 ++ t :: l2) ++ [u] = l1 ++ t :: (l2 ++ [u]) := by simp
      rw [hshape]
      exact ih l1 (l2 ++ [u]) h1 h2rest ht_rest hrest_nd
    | true =>
      by_cases hu : u.unreadMessages > 0
      · rw [mergeTicketRec_found_unread hc hu]
        have hshape : eraseFirstId u.id (l1 ++ t :: l2) = l1 ++ t :: eraseFirstId u.id l2 := by
          rw [eraseFirstId_append_left _ hu_l1, eraseFirstId_cons, hbne, if_neg (by simp)]
        rw [hshape]
        have hshape2 : u :: (l1 ++ t :: eraseFirstId u.id l2) =
            (u :: l1) ++ t :: eraseFirstId u.id l2 := rfl
        rw [hshape2]
        refine ih (u :: l1) (eraseFirstId u.id l2) ?_ ?_ ht_rest hrest_nd
        · intro v hv
          rcases List.mem_cons.mp hv with h3 | h3
          · exact h3 ▸ hu
          · exact h1 v h3
        · intro v hv
          rcases List.mem_cons.mp hv with h3 | h3
          · exact h3 ▸ hu_rest
          · exact h2rest v h3
      · rw [mergeTicketRec_found_read hc hu]
        have hshape : updateFirst u (l1 ++ t :: l2) = l1 ++ t :: updateFirst u l2 := by
          rw [updateFirst_append_left _ hu_l1, updateFirst_cons, hbne, if_neg (by simp)]
        rw [hshape]
        exact ih l1 (updateFirst u l2) h1 h2rest ht_rest hrest_nd

/-- C3 counterexample: state `[{id 2, read}]`, batch
`[{id 1, unread 5}, {id 2, read}]`. The unread ticket 1 is new, so the reducer
pushes it at the end; the non-unread ticket 2, merged after it, is replaced in
place at index 0. The unread ticket ends at index 1 > 0, refuting the claim as
stated. -/
theorem unread_first_counterexample :
    0 < (⟨1, 5, none, none, "open"⟩ : Ticket).unreadMessages ∧
    (⟨2, 0, none, none, "open"⟩ : Ticket).unreadMessages = 0 ∧
    loadTickets [⟨2, 0, none, none, "open"⟩]
        [⟨1, 5, none, none, "open"⟩, ⟨2, 0, none, none, "open"⟩] =
      [⟨2, 0, none, none, "open"⟩, ⟨1, 5, none, none, "open"⟩] ∧
    ¬ (1 : Nat) ≤ 0 := by
  refine ⟨by decide, by decide, ?_, by decide⟩
  rfl

/-- C3 (amended): if the batch has pairwise-distinct ticket ids and the unread
ticket `t` of the batch is already present (by id) in the starting list, then
after the merge `t` sits at an index no greater than the index of every ticket
with no unread messages — in particular no greater than any non-unread ticket
merged after it. (The counterexamples force both added hypotheses: a new
unread ticket is appended at the end, and a batch repeating an id can park a
non-unread replacement in front.) -/
theorem unread_first_amended (s batch : List Ticket) (t : Ticket) (b1 b2 : List Ticket)
    (hsplit : batch = b1 ++ t :: b2)
    (hnd : (ids batch).Nodup)
    (hu : t.unreadMessages > 0)
    (hpresent : containsId t.id s = true) :
    ∃ i, (loadTickets s batch)[i]? = some t ∧
      ∀ (j : Nat) (u : Ticket), (loadTickets s batch)[j]? = some u →
        u.unreadMessages = 0 → i ≤ j := by
  subst hsplit
  rw [ids_append, ids_cons] at hnd
  have hnd2 : (t.id :: ids b2).Nodup := List.Nodup.of_append_right hnd
  have htb2 : t.id ∉ ids b2 := (List.nodup_cons.mp hnd2).1
  have hndb2 : (ids b2).Nodup := (List.nodup_cons.mp hnd2).2
  rw [loadTickets_append]
  have hc1 : containsId t.id (loadTickets s b1) = true := containsId_loadTickets_mono b1 hpresent
  have hstep : loadTickets (loadTickets s b1) (t :: b2) =
      loadTickets (mergeTicket (loadTickets s b1) t) b2 := rfl
  rw [hstep, mergeTicket_eq_rec, mergeTicketRec_found_unread hc1 hu]
  obtain ⟨l1, l2, heq, hall⟩ :=
    loadTickets_unread_front t b2 [] (eraseFirstId t.id (loadTickets s b1))
      (by intro u hu'; cases hu') (by intro u hu'; cases hu') htb2 hndb2
  have heq' : loadTickets (t :: eraseFirstId t.id (loadTickets s b1)) b2 = l1 ++ t :: l2 := heq
  rw [heq']
  refine ⟨l1.length, ?_, ?_⟩
  · rw [List.getElem?_append_right (Nat.le_refl _), Nat.sub_self]
    exact List.getElem?_cons_zero
  · intro j u hj hu0
    by_contra hlt
    push_neg at hlt
    rw [List.getElem?_append_left hlt] at hj
    have hmem : u ∈ l1 := List.getElem?_mem hj
    have := hall u hmem
    omega

/-- C3 witness: the amended theorem applied to a concrete state in which the
unread batch ticket is already present. -/
theorem unread_first_amended_witness :
    ∃ i, (loadTickets [⟨1, 1, none, none, "open"⟩, ⟨2, 0, none, none, "open"⟩]
        [⟨1, 3, none, none, "open"⟩, ⟨2, 0, none, none, "open"⟩])[i]? =
        some ⟨1, 3, none, none, "open"⟩ ∧
      ∀ (j : Nat) (u : Ticket),
        (loadTickets [⟨1, 1, none, none, "open"⟩, ⟨2, 0, none, none, "open"⟩]
          [⟨1, 3, none, none, "open"⟩, ⟨2, 0, none, none, "open"⟩])[j]? = some u →
        u.unreadMessages = 0 → i ≤ j :=
  unread_first_amended [⟨1, 1, none, none, "open"⟩, ⟨2, 0, none, none, "open"⟩]
    [⟨1, 3, none, none, "open"⟩, ⟨2, 0, none, none, "open"⟩]
    ⟨1, 3, none, none, "open"⟩ [] [⟨2, 0, none, none, "open"⟩]
    rfl (by decide) (by decide) (by decide)

theorem containsId_eq_ids_any (tid : Nat) (s : List Ticket) :
    containsId tid s = (ids s).any (fun x => x == tid) := by
  induction s with
  | nil => rfl
  | cons a s ih =>
    rw [containsId_cons, ih]
    rfl

theorem containsId_congr_ids {s1 s2 : List Ticket} (x : Nat) (h : ids s1 = ids s2) :
    containsId x s1 = containsId x s2 := by
  rw [containsId_eq_ids_any, containsId_eq_ids_any, h]

theorem updateFirst_idem (t : Ticket) (s : List Ticket) :
    updateFirst t (updateFirst t s) = updateFirst t s := by
  induction s with
  | nil => rfl
  | cons a s ih =>
    rw [updateFirst_cons]
    by_cases hb : a.id = t.id
    · have hb' : (a.id == t.id) = true := by simp [hb]
      rw [hb', if_pos rfl, updateFirst_cons, beq_self_eq_true, if_pos rfl]
    · have hb' : (a.id == t.id) = false := by simp [hb]
      rw [hb', if_neg (by simp), updateFirst_cons, hb', if_neg (by simp), ih]

/-- C9 counterexample: for a ticket with unread messages that is not yet in
the list, merging it once appends it at the end, merging it a second time
moves it to the front, so the two list states are not equal as sequences. -/
theorem merge_idempotent_counterexample :
    loadTickets (loadTickets [tEx1] [tEx2]) [tEx2] ≠ loadTickets [tEx1] [tEx2] := by
  decide

/-- C9 (amended): merging the same ticket twice yields the same ListState as
merging it once up to permutation; the results are strictly equal whenever the
ticket has no unread messages or its id was already present, i.e. the only
position difference is the unread-driven move-to-front of a newly appended
ticket. -/
theorem merge_idempotent_upto_perm (s : List Ticket) (t : Ticket) :
    (loadTickets (loadTickets s [t]) [t]).Perm (loadTickets s [t]) ∧
    (t.unreadMessages = 0 →
      loadTickets (loadTickets s [t]) [t] = loadTickets s [t]) ∧
    (containsId t.id s = true →
      loadTickets (loadTickets s [t]) [t] = loadTickets s [t]) := by
  have hL : ∀ st : List Ticket, loadTickets st [t] = mergeTicketRec st t := fun st =>
    mergeTicket_eq_rec st t
  simp only [hL]
  cases hc : containsId t.id s with
  | true =>
    by_cases hu : t.unreadMessages > 0
    · rw [mergeTicketRec_found_unread hc hu]
      have hc2 : containsId t.id (t :: eraseFirstId t.id s) = true := by
        rw [containsId_cons, beq_self_eq_true, Bool.true_or]
      have heq : mergeTicketRec (t :: eraseFirstId t.id s) t = t :: eraseFirstId t.id s := by
        rw [mergeTicketRec_found_unread hc2 hu, eraseFirstId_cons, beq_self_eq_true, if_pos rfl]
      rw [heq]
      exact ⟨List.Perm.refl _, fun _ => rfl, fun _ => rfl⟩
    · rw [mergeTicketRec_found_read hc hu]
      have hc2 : containsId t.id (updateFirst t s) = true := by
        rw [containsId_congr_ids t.id (ids_updateFirst t s)]
        exact hc
      have heq : mergeTicketRec (updateFirst t s) t = updateFirst t s := by
        rw [mergeTicketRec_found_read hc2 hu]
        exact updateFirst_idem t s
      rw [heq]
      exact ⟨List.Perm.refl _, fun _ => rfl, fun _ => rfl⟩
  | false =>
    rw [mergeTicketRec_not_found hc]
    have hnm : t.id ∉ ids s := not_mem_of_containsId_false hc
    have hc2 : containsId t.id (s ++ [t]) = true := by
      rw [containsId_iff_mem, ids_append]
      exact List.mem_append.mpr (Or.inr (by simp [ids]))
    by_cases hu : t.unreadMessages > 0
    · rw [mergeTicketRec_found_unread hc2 hu]
      have herase : eraseFirstId t.id (s ++ [t]) = s := by
        rw [eraseFirstId_append_left _ hnm, eraseFirstId_cons, beq_self_eq_true, if_pos rfl]
        exact List.append_nil s
      rw [herase]
      refine ⟨(List.perm_append_singleton t s).symm, ?_, ?_⟩
      · intro hu0
        omega
      · intro hcc
        exact Bool.noConfusion hcc
    · rw [mergeTicketRec_found_read hc2 hu]
      have hupd : updateFirst t (s ++ [t]) = s ++ [t] := by
        rw [updateFirst_append_left _ hnm, updateFirst_cons, beq_self_eq_true, if_pos rfl]
      rw [hupd]
      exact ⟨List.Perm.refl _, fun _ => rfl, fun _ => rfl⟩

/-- C9 witness: strict equality of double and single merge for a concrete
ticket with no unread messages. -/
theorem merge_idempotent_upto_perm_witness :
    loadTickets (loadTickets [tEx2] [tEx1]) [tEx1] = loadTickets [tEx2] [tEx1] :=
  (merge_idempotent_upto_perm [tEx2] tEx1).2.1 rfl

theorem shouldUpdateTicket_iff {t : Ticket} {cu : Option Nat} {sa : Bool} {q : List Nat} :
    shouldUpdateTicket t cu sa q = true ↔
      ((t.userId = none ∨ t.userId = cu ∨ sa = true) ∧
       (t.queueId = none ∨ ∃ qq ∈ q, t.queueId = some qq)) := by
  cases hq : t.queueId with
  | none =>
    simp [shouldUpdateTicket, hq, Option.isNone_iff_eq_none]
    tauto
  | some qq =>
    simp [shouldUpdateTicket, hq, Option.isNone_iff_eq_none]
    tauto

/-- C7: an `update` push event merges its ticket into the list as a batch of
one exactly when (the ticket has no owning operator, or its owner is the
current user, or `showAll` is set) and (the ticket has no queue, or its queue
is among the selected queue ids); otherwise the event leaves the list
unchanged. -/
theorem update_event_membership (s : List Ticket) (t : Ticket) (cu : Option Nat)
    (sa : Bool) (q : List Nat) :
    handleTicketEvent s "update" t cu sa q =
      if (t.userId = none ∨ t.userId = cu ∨ sa = true) ∧
         (t.queueId = none ∨ ∃ qq ∈ q, t.queueId = some qq) then
        loadTickets s [t]
      else s := by
  have hd : (("update" : String) == "delete") = false := by decide
  have hup : (("update" : String) == "update") = true := by decide
  by_cases hP : ((t.userId = none ∨ t.userId = cu ∨ sa = true) ∧
      (t.queueId = none ∨ ∃ qq ∈ q, t.queueId = some qq))
  · have hs : shouldUpdateTicket t cu sa q = true := shouldUpdateTicket_iff.mpr hP
    simp [handleTicketEvent, reducer, hd, hup, hs, hP]
  · have hs : shouldUpdateTicket t cu sa q = false := by
      cases h2 : shouldUpdateTicket t cu sa q
      · rfl
      · exact absurd (shouldUpdateTicket_iff.mp h2) hP
    simp [handleTicketEvent, reducer, hd, hup, hs, hP]

/-- C8: a `delete` push event dispatches `RESET`, a filter change dispatches
`RESET` (and page 1), and `RESET` empties the ListState whatever its prior
contents. -/
theorem delete_and_filter_reset :
    (∀ (s : List Ticket) (t : Ticket) (cu : Option Nat) (sa : Bool) (q : List Nat),
      handleTicketEvent s "delete" t cu sa q = []) ∧
    (∀ s : List Ticket, reducer s TicketsAction.reset = []) ∧
    (∀ (s : List Ticket) (p : Nat), onFilterChange s p = ([], 1)) := by
  refine ⟨?_, ?_, ?_⟩
  · intro s t cu sa q
    have hd : (("delete" : String) == "update") = false := by decide
    simp [handleTicketEvent, reducer, hd]
  · intro s
    rfl
  · intro s p
    rfl

/-- C1 (code bug): a fetch superseded before the internal abort check runs
(`signal.aborted = true`) does not resolve to the empty page. The internal
function throws `new Error("Requisição cancelada")`, whose `name` is
`"Error"`, so the wrapper's `error.name === "AbortError"` test fails and the
cancellation error propagates to the consumer instead of the empty
`{ tickets: [], count: 0, hasMore: false }` page. -/
theorem listTickets_cancelled_propagates_error (db : List TicketRow)
    (ticketTags : List TicketTagRow) (userQueueIds : List Nat) (r : Request) :
    ListTicketsService true db ticketTags userQueueIds r =
      Except.error ⟨"Error", "Requisição cancelada"⟩ ∧
    ∀ res : Response,
      ListTicketsService true db ticketTags userQueueIds r ≠ Except.ok res := by
  have h1 : ListTicketsService true db ticketTags userQueueIds r =
      Except.error ⟨"Error", "Requisição cancelada"⟩ := rfl
  refine ⟨h1, ?_⟩
  intro res h
  rw [h1] at h
  exact Except.noConfusion h

/-- C10: the refresh-token service returns a new access/refresh token pair
exactly when the token is present and non-empty, verifies against the
configured refresh secret, the user lookup succeeds, and the stored
`tokenVersion` equals the decoded one; the success value carries the freshly
created token pair without clearing the cookie, and on every failing input
the service clears the `"jrt"` cookie and throws a 401 `AppError`. -/
theorem refreshToken_service_contract (verify : String → Option RefreshTokenPayload)
    (showUser : Nat → Option AuthUser) (ca cr : AuthUser → String)
    (token : Option String) :
    ((∃ resp, (RefreshTokenService verify showUser ca cr token).1 = Except.ok resp) ↔
      (∃ tok p u, token = some tok ∧ tok.isEmpty = false ∧ verify tok = some p ∧
        showUser p.id = some u ∧ u.tokenVersion = p.tokenVersion)) ∧
    (∀ (tok : String) (p : RefreshTokenPayload) (u : AuthUser),
      token = some tok → tok.isEmpty = false → verify tok = some p →
      showUser p.id = some u → u.tokenVersion = p.tokenVersion →
      RefreshTokenService verify showUser ca cr token =
        (Except.ok ⟨u, ca u, cr u⟩, false)) ∧
    (∀ e : AppError, (RefreshTokenService verify showUser ca cr token).1 = Except.error e →
      e.statusCode = 401 ∧ (RefreshTokenService verify showUser ca cr token).2 = true) := by
  cases token with
  | none =>
    refine ⟨?_, ?_, ?_⟩
    · simp [RefreshTokenService]
    · intro tok p u h
      exact absurd h (by simp)
    · intro e he
      simp [RefreshTokenService] at he
      simp [RefreshTokenService, ← he]
  | some tok =>
    cases he : tok.isEmpty with
    | true =>
      refine ⟨?_, ?_, ?_⟩
      · simp [RefreshTokenService, he]
      · intro tok' p u h h2
        rw [Option.some.injEq] at h
        subst h
        rw [he] at h2
        exact Bool.noConfusion h2
      · intro e hee
        simp [RefreshTokenService, he] at hee
        simp [RefreshTokenService, he, ← hee]
    | false =>
      cases hv : verify tok with
      | none =>
        refine ⟨?_, ?_, ?_⟩
        · simp [RefreshTokenService, he, hv]
        · intro tok' p u h h2 h3
          rw [Option.some.injEq] at h
          subst h
          rw [hv] at h3
          exact Option.noConfusion h3
        · intro e hee
          simp [RefreshTokenService, he, hv] at hee
          simp [RefreshTokenService, he, hv, ← hee]
      | some decoded =>
        cases hsu : showUser decoded.id with
        | none =>
          refine ⟨?_, ?_, ?_⟩
          · simp [RefreshTokenService, he, hv, hsu]
          · intro tok' p u h h2 h3 h4
            rw [Option.some.injEq] at h
            subst h
            rw [hv, Option.some.injEq] at h3
            subst h3
            rw [hsu] at h4
            exact Option.noConfusion h4
          · intro e hee
            simp [RefreshTokenService, he, hv, hsu] at hee
            simp [RefreshTokenService, he, hv, hsu, ← hee]
        | some user =>
          by_cases hver : user.tokenVersion = decoded.tokenVersion
          · refine ⟨?_, ?_, ?_⟩
            · constructor
              · intro _
                exact ⟨tok, decoded, user, rfl, he, hv, hsu, hver⟩
              · intro _
                exact ⟨⟨user, ca user, cr user⟩, by simp [RefreshTokenService, he, hv, hsu, hver]⟩
            · intro tok' p u h h2 h3 h4 h5
              rw [Option.some.injEq] at h
              subst h
              rw [hv, Option.some.injEq] at h3
              subst h3
              rw [hsu, Option.some.injEq] at h4
              subst h4
              simp [RefreshTokenService, he, hv, hsu, hver]
            · intro e hee
              simp [RefreshTokenService, he, hv, hsu, hver] at hee
          · refine ⟨?_, ?_, ?_⟩
            · constructor
              · intro hok
                rcases hok with ⟨resp, hresp⟩
                simp [RefreshTokenService, he, hv, hsu, hver] at hresp
              · rintro ⟨tok', p, u, h, h2, h3, h4, h5⟩
                rw [Option.some.injEq] at h
                subst h
                rw [hv, Option.some.injEq] at h3
                subst h3
                rw [hsu, Option.some.injEq] at h4
                subst h4
                exact absurd h5 hver
            · intro tok' p u h h2 h3 h4 h5
              rw [Option.some.injEq] at h
              subst h
              rw [hv, Option.some.injEq] at h3
              subst h3
              rw [hsu, Option.some.injEq] at h4
              subst h4
              exact absurd h5 hver
            · intro e hee
              simp [RefreshTokenService, he, hv, hsu, hver] at hee
              simp [RefreshTokenService, he, hv, hsu, hver, ← hee]

/-- C10 witness: the contract applied to a concrete verifier, user store and
token, yielding the success pair. -/
theorem refreshToken_service_contract_witness :
    RefreshTokenService verifyEx showUserEx mkTokenEx mkTokenEx (some "t") =
      (Except.ok ⟨⟨1, 2⟩, "tok", "tok"⟩, false) :=
  (refreshToken_service_contract verifyEx showUserEx mkTokenEx mkTokenEx (some "t")).2.1
    "t" ⟨1, 2⟩ ⟨1, 2⟩ rfl rfl rfl rfl rfl

theorem length_insertDesc (row : TicketRow) (l : List TicketRow) :
    (insertDesc row l).length = l.length + 1 := by
  induction l with
  | nil => rfl
  | cons a l ih =>
    by_cases h : a.updatedAtNum ≤ row.updatedAtNum
    · simp [insertDesc, h]
    · simp [insertDesc, h, ih]

theorem length_sortByUpdatedDesc (l : List TicketRow) :
    (sortByUpdatedDesc l).length = l.length := by
  induction l with
  | nil => rfl
  | cons a l ih => simp [sortByUpdatedDesc, length_insertDesc, ih]

theorem service_tickets_length (db : List TicketRow) (tt : List TicketTagRow)
    (uq : List Nat) (r : Request) :
    (ListTicketsServiceInternal db tt uq r).tickets.length =
      min 40 ((ListTicketsServiceInternal db tt uq r).count - 40 * (r.pageNumber - 1)) := by
  have h2 : (ListTicketsServiceInternal db tt uq r).tickets =
      ((sortByUpdatedDesc (db.filter (fun row =>
        evalWhereCond (buildWhereCondition r uq tt) row))).drop
          (40 * (r.pageNumber - 1))).take 40 := rfl
  have h3 : (ListTicketsServiceInternal db tt uq r).count =
      (db.filter (fun row => evalWhereCond (buildWhereCondition r uq tt) row)).length := rfl
  rw [h2, h3, List.length_take, List.length_drop, length_sortByUpdatedDesc]

/-- C4: every fetch uses page size 40 and offset `40 * (pageNumber - 1)`, and
returns `hasMore = (totalCount > offset + returnedCount)`; in particular when
the matching set has 85 rows, page 1 returns 40 tickets with
`hasMore = true` and page 3 (offset 80) returns 5 tickets with
`hasMore = false`. -/
theorem pagination_math (db : List TicketRow) (tt : List TicketTagRow)
    (uq : List Nat) (r : Request) :
    ((ListTicketsServiceInternal db tt uq r).tickets =
      ((sortByUpdatedDesc (db.filter (fun row =>
        evalWhereCond (buildWhereCondition r uq tt) row))).drop
          (40 * (r.pageNumber - 1))).take 40) ∧
    ((ListTicketsServiceInternal db tt uq r).hasMore =
      decide ((ListTicketsServiceInternal db tt uq r).count >
        40 * (r.pageNumber - 1) +
          (ListTicketsServiceInternal db tt uq r).tickets.length)) ∧
    ((ListTicketsServiceInternal db tt uq { r with pageNumber := 1 }).count = 85 →
      (ListTicketsServiceInternal db tt uq { r with pageNumber := 1 }).tickets.length = 40 ∧
      (ListTicketsServiceInternal db tt uq { r with pageNumber := 1 }).hasMore = true) ∧
    ((ListTicketsServiceInternal db tt uq { r with pageNumber := 3 }).count = 85 →
      (ListTicketsServiceInternal db tt uq { r with pageNumber := 3 }).tickets.length = 5 ∧
      (ListTicketsServiceInternal db tt uq { r with pageNumber := 3 }).hasMore = false) := by
  refine ⟨rfl, rfl, ?_, ?_⟩
  · intro h85
    have hlen : (ListTicketsServiceInternal db tt uq
        { r with pageNumber := 1 }).tickets.length = 40 := by
      rw [service_tickets_length, h85,
        show ({ r with pageNumber := 1 } : Request).pageNumber = 1 from rfl]
      decide
    refine ⟨hlen, ?_⟩
    have hm : (ListTicketsServiceInternal db tt uq { r with pageNumber := 1 }).hasMore =
        decide ((ListTicketsServiceInternal db tt uq { r with pageNumber := 1 }).count >
          40 * (({ r with pageNumber := 1 } : Request).pageNumber - 1) +
            (ListTicketsServiceInternal db tt uq
              { r with pageNumber := 1 }).tickets.length) := rfl
    rw [hm, h85, hlen,
      show ({ r with pageNumber := 1 } : Request).pageNumber = 1 from rfl]
    decide
  · intro h85
    have hlen : (ListTicketsServiceInternal db tt uq
        { r with pageNumber := 3 }).tickets.length = 5 := by
      rw [service_tickets_length, h85,
        show ({ r with pageNumber := 3 } : Request).pageNumber = 3 from rfl]
      decide
    refine ⟨hlen, ?_⟩
    have hm : (ListTicketsServiceInternal db tt uq { r with pageNumber := 3 }).hasMore =
        decide ((ListTicketsServiceInternal db tt uq { r with pageNumber := 3 }).count >
          40 * (({ r with pageNumber := 3 } : Request).pageNumber - 1) +
            (ListTicketsServiceInternal db tt uq
              { r with pageNumber := 3 }).tickets.length) := rfl
    rw [hm, h85, hlen,
      show ({ r with pageNumber := 3 } : Request).pageNumber = 3 from rfl]
    decide

/-- C4 witness: the pagination theorem applied to a store of 85 matching
rows. -/
theorem pagination_math_witness :
    (ListTicketsServiceInternal (List.replicate 85 rowEx) [] []
      { rEx85 with pageNumber := 1 }).tickets.length = 40 ∧
    (ListTicketsServiceInternal (List.replicate 85 rowEx) [] []
      { rEx85 with pageNumber := 1 }).hasMore = true ∧
    (ListTicketsServiceInternal (List.replicate 85 rowEx) [] []
      { rEx85 with pageNumber := 3 }).tickets.length = 5 ∧
    (ListTicketsServiceInternal (List.replicate 85 rowEx) [] []
      { rEx85 with pageNumber := 3 }).hasMore = false :=
  ⟨((pagination_math (List.replicate 85 rowEx) [] [] rEx85).2.2.1 (by rfl)).1,
   ((pagination_math (List.replicate 85 rowEx) [] [] rEx85).2.2.1 (by rfl)).2,
   ((pagination_math (List.replicate 85 rowEx) [] [] rEx85).2.2.2 (by rfl)).1,
   ((pagination_math (List.replicate 85 rowEx) [] [] rEx85).2.2.2 (by rfl)).2⟩

/-- C5 counterexample: with `withUnreadMessages = "true"` and a non-empty tag
set, the built condition additionally carries the resolved ticket-id
restriction, so it is not exactly the three-clause unread condition; a row
satisfying the three clauses but outside the resolved id set is excluded. -/
theorem withUnread_condition_counterexample :
    buildWhereCondition rExUnreadTags [9] ttEx ≠ specUnreadCondition 7 [9] ∧
    evalWhereCond (buildWhereCondition rExUnreadTags [9] ttEx) rowEx2 = false ∧
    evalWhereCond (specUnreadCondition 7 [9]) rowEx2 = true := by
  refine ⟨by decide, by decide, by decide⟩

/-- C5 (amended): for every request with `withUnreadMessages = "true"` and an
empty tag set, the built condition is exactly
(belongs to operator OR pending) AND (queue in the operator's own set OR null)
AND `unreadMessages > 0`, with the previously composed status, search and date
clauses replaced; with a non-empty tag set every clause except the appended
resolved-ticket-id restriction still equals that condition. -/
theorem withUnread_condition_amended (r : Request) (uq : List Nat)
    (tt : List TicketTagRow) (hw : r.withUnreadMessages = some "true") :
    (r.tags = [] → buildWhereCondition r uq tt = specUnreadCondition r.userId uq) ∧
    ((buildWhereCondition r uq tt).opOr = some (OrClause.userPending r.userId) ∧
     (buildWhereCondition r uq tt).queueCond = some uq ∧
     (buildWhereCondition r uq tt).status = none ∧
     (buildWhereCondition r uq tt).createdAtDay = none ∧
     (buildWhereCondition r uq tt).updatedAtDay = none ∧
     (buildWhereCondition r uq tt).unreadGt = some 0) := by
  have h6 : buildWhereCondition r uq tt =
      if r.tags.isEmpty then specUnreadCondition r.userId uq
      else { specUnreadCondition r.userId uq with
              idIn := some (resolveTagTicketIds tt r.tags) } := by
    simp [buildWhereCondition, specUnreadCondition, hw]
  constructor
  · intro htags
    rw [h6, htags]
    rfl
  · rw [h6]
    by_cases htags : r.tags.isEmpty = true
    · rw [if_pos htags]
      exact ⟨rfl, rfl, rfl, rfl, rfl, rfl⟩
    · rw [if_neg htags]
      exact ⟨rfl, rfl, rfl, rfl, rfl, rfl⟩

/-- C5 witness: the amended theorem applied to a concrete unread request with
no tags. -/
theorem withUnread_condition_witness :
    buildWhereCondition rExUnread [9] ttEx = specUnreadCondition 7 [9] :=
  (withUnread_condition_amended rExUnread [9] ttEx rfl).1 rfl

theorem uniqAux_cons (seen : List Nat) (a : Nat) (l : List Nat) :
    uniqAux seen (a :: l) =
      if seen.contains a then uniqAux seen l else a :: uniqAux (a :: seen) l := rfl

theorem mem_uniqAux (x : Nat) : ∀ (l seen : List Nat),
    x ∈ uniqAux seen l ↔ x ∈ l ∧ x ∉ seen := by
  intro l
  induction l with
  | nil =>
    intro seen
    simp [uniqAux]
  | cons a l ih =>
    intro seen
    cases hc : seen.contains a with
    | true =>
      have ha : a ∈ seen := List.elem_iff.mp hc
      rw [uniqAux_cons, hc, if_pos rfl, ih]
      constructor
      · rintro ⟨h1, h2⟩
        exact ⟨List.mem_cons.mpr (Or.inr h1), h2⟩
      · rintro ⟨h1, h2⟩
        rcases List.mem_cons.mp h1 with h3 | h3
        · exact absurd (h3 ▸ ha) h2
        · exact ⟨h3, h2⟩
    | false =>
      have ha : a ∉ seen := fun hm => by
        have h2 : seen.contains a = true := List.elem_iff.mpr hm
        rw [h2] at hc
        exact Bool.noConfusion hc
      rw [uniqAux_cons, hc, if_neg (by simp)]
      constructor
      · intro h1
        rcases List.mem_cons.mp h1 with h3 | h3
        · subst h3
          exact ⟨List.mem_cons.mpr (Or.inl rfl), ha⟩
        · obtain ⟨h4, h5⟩ := (ih (a :: seen)).mp h3
          have h6 : x ∉ seen := fun hm => h5 (List.mem_cons.mpr (Or.inr hm))
          exact ⟨List.mem_cons.mpr (Or.inr h4), h6⟩
      · rintro ⟨h1, h2⟩
        rcases List.mem_cons.mp h1 with h3 | h3
        · exact List.mem_cons.mpr (Or.inl h3)
        · by_cases hx : x = a
          · exact List.mem_cons.mpr (Or.inl hx)
          · refine List.mem_cons.mpr (Or.inr ((ih (a :: seen)).mpr ⟨h3, ?_⟩))
            intro hm
            rcases List.mem_cons.mp hm with h4 | h4
            · exact hx h4
            · exact h2 h4

theorem mem_resolveTagTicketIds {x : Nat} {tt : List TicketTagRow} {tags : List Nat} :
    x ∈ resolveTagTicketIds tt tags ↔
      ∃ row ∈ tt, row.tagId ∈ tags ∧ row.ticketId = x := by
  rw [resolveTagTicketIds, intersectionOne, mem_uniqAux]
  simp [List.mem_map, List.mem_filter, List.elem_iff]
  constructor
  · rintro ⟨row, ⟨h1, h2⟩, h3⟩
    exact ⟨row, h1, h2, h3⟩
  · rintro ⟨row, h1, h2, h3⟩
    exact ⟨row, ⟨h1, h2⟩, h3⟩

theorem build_idIn_none (r : Request) (uq : List Nat) (tt : List TicketTagRow)
    (h : r.tags = []) : (buildWhereCondition r uq tt).idIn = none := by
  have hf : r.tags.isEmpty = true := by rw [h]; rfl
  simp only [buildWhereCondition, hf, if_true]
  repeat' split <;> try simp

theorem build_with_tags (r : Request) (uq : List Nat) (tt : List TicketTagRow)
    (h : r.tags ≠ []) :
    buildWhereCondition r uq tt =
      { buildWhereCondition { r with tags := [] } uq tt with
        idIn := some (resolveTagTicketIds tt r.tags) } := by
  have hf : r.tags.isEmpty = false := by
    cases ht : r.tags with
    | nil => exact absurd ht h
    | cons a l => rfl
  simp [buildWhereCondition, hf]

theorem evalWhereCond_set_idIn (w : WhereCond) (allowed : List Nat) (row : TicketRow)
    (h : w.idIn = none) :
    evalWhereCond { w with idIn := some allowed } row =
      (evalWhereCond w row && allowed.contains row.id) := by
  obtain ⟨f1, f2, f3, f4, f5, f6, f7⟩ := w
  simp only [WhereCond.idIn] at h
  subst h
  simp [evalWhereCond, Bool.and_assoc]

/-- C6: with a non-empty tag set, (1) the resolved ticket-id set contains
exactly the ids of tickets carrying at least one of the given tags ("ANY"
semantics), (2) the built visibility condition is the tag-free condition
intersected with membership in that resolved set, and (3) when the resolved
set is empty the returned page is empty (count 0, no tickets) rather than
unfiltered. -/
theorem tag_filter_any_semantics :
    (∀ (tt : List TicketTagRow) (tags : List Nat) (x : Nat),
      x ∈ resolveTagTicketIds tt tags ↔
        ∃ row ∈ tt, row.tagId ∈ tags ∧ row.ticketId = x) ∧
    (∀ (r : Request) (uq : List Nat) (tt : List TicketTagRow) (row : TicketRow),
      r.tags ≠ [] →
      evalWhereCond (buildWhereCondition r uq tt) row =
        (evalWhereCond (buildWhereCondition { r with tags := [] } uq tt) row &&
          (resolveTagTicketIds tt r.tags).contains row.id)) ∧
    (∀ (db : List TicketRow) (tt : List TicketTagRow) (uq : List Nat) (r : Request),
      r.tags ≠ [] → resolveTagTicketIds tt r.tags = [] →
      (ListTicketsServiceInternal db tt uq r).tickets = [] ∧
      (ListTicketsServiceInternal db tt uq r).count = 0) := by
  refine ⟨?_, ?_, ?_⟩
  · intro tt tags x
    exact mem_resolveTagTicketIds
  · intro r uq tt row h
    rw [build_with_tags r uq tt h]
    exact evalWhereCond_set_idIn _ _ row (build_idIn_none _ uq tt rfl)
  · intro db tt uq r h hres
    have heval : ∀ row : TicketRow,
        evalWhereCond (buildWhereCondition r uq tt) row = false := by
      intro row
      rw [build_with_tags r uq tt h, hres,
        evalWhereCond_set_idIn _ _ row (build_idIn_none _ uq tt rfl)]
      simp [List.contains]
    have hmatch : db.filter
        (fun row => evalWhereCond (buildWhereCondition r uq tt) row) = [] := by
      rw [List.filter_eq_nil_iff]
      intro row _
      rw [heval row]
      simp
    constructor
    · have h2 : (ListTicketsServiceInternal db tt uq r).tickets =
          ((sortByUpdatedDesc (db.filter (fun row =>
            evalWhereCond (buildWhereCondition r uq tt) row))).drop
              (40 * (r.pageNumber - 1))).take 40 := rfl
      rw [h2, hmatch]
      simp [sortByUpdatedDesc]
    · have h3 : (ListTicketsServiceInternal db tt uq r).count =
          (db.filter (fun row =>
            evalWhereCond (buildWhereCondition r uq tt) row)).length := rfl
      rw [h3, hmatch]
      rfl

/-- C6 witness: the empty-resolution conjunct applied to a concrete store and
a tag set resolving to no ticket. -/
theorem tag_filter_any_semantics_witness :
    (ListTicketsServiceInternal [rowEx] ttEx [] rExEmptyTags).tickets = [] ∧
    (ListTicketsServiceInternal [rowEx] ttEx [] rExEmptyTags).count = 0 :=
  tag_filter_any_semantics.2.2 [rowEx] ttEx [] rExEmptyTags (by decide) (by decide)
